import Mathlib

/-!
Shallow embedding of the loxInFlux data pipeline and proofs about it.

The definitions below are translated from the Python sources of the
repository (src/loxInFlux/): the decompression loop and cache logic of
miniserver.py, the filter rules of config.py, the registry construction of
miniserver.py together with the dispatcher's value-state handler of app.py,
the value formatter of app.py, the numeric coercion of utils.py, and the
metric-writer state machines of telegraf.py.  Machine bytes are modelled as
Nat, Python byte strings as List Nat, Python dicts as insertion-ordered
association lists, fallible code as Except, and numeric values as exact
rationals (every concrete value appearing in a theorem below is an exactly
representable, tie-free decimal, for which CPython's binary-float formatting
and rounding agree with the rational model).
-/

set_option maxRecDepth 8000

deriving instance DecidableEq for Except

namespace LoxInFlux

/-! ## Value formatting (app.py, LoxInfluxBridge.__init__ / handle_value_states) -/

/-- Rounding of `q * 10 ^ prec` to the nearest integer (half up), written out on
the numerator and denominator: `⌊(q.num * 10 ^ prec) / q.den + 1 / 2⌋`. -/
def scaledRound (q : ℚ) (prec : Nat) : Int :=
  Int.fdiv (2 * q.num * (10 : Int) ^ prec + (q.den : Int)) (2 * (q.den : Int))

/-- Fixed-point rendering of a rational with `prec` digits after the decimal
point, rounding half-up at the last digit.  This models CPython's
fixed-precision float format for the inputs used in this development (exactly
representable decimals, no rounding ties, so the binary-float step of CPython
yields the same digit string). -/
def formatFixed (q : ℚ) (prec : Nat) : String :=
  let scaled : Int := scaledRound q prec
  let base : Nat := 10 ^ prec
  let sign := if scaled < 0 then "-" else ""
  let a := scaled.natAbs
  let ipart := a / base
  let fpart := a % base
  let fstr := toString fpart
  let pad := String.mk (List.replicate (prec - fstr.length) '0')
  sign ++ toString ipart ++ "." ++ pad ++ fstr

/-- The precision baked into `self.formatter` once in `LoxInfluxBridge.__init__`
(app.py line 38): `rounding_precision` when `round_floats` is configured,
otherwise 15. -/
def formatterPrecision (round_floats : Bool) (rounding_precision : Nat) : Nat :=
  if round_floats then rounding_precision else 15

/-- The push-path value formatter `self.formatter` applied to a numeric value. -/
def formatValue (round_floats : Bool) (rounding_precision : Nat) (q : ℚ) : String :=
  formatFixed q (formatterPrecision round_floats rounding_precision)

/-! ## Poll-path numeric coercion (utils.py, get_numeric_value_if_possible) -/

/-- Whitespace stripped by Python's numeric constructors. -/
def isPySpace (c : Char) : Bool :=
  c = ' ' || c = '\t' || c = '\n' || c = '\r' || c = '\x0b' || c = '\x0c'

/-- Strip `isPySpace` characters from both ends. -/
def stripPySpace (cs : List Char) : List Char :=
  ((cs.dropWhile isPySpace).reverse.dropWhile isPySpace).reverse

/-- ASCII uppercase of one character — Python `str.upper` on the ASCII type
and attribute strings handled here. -/
def charUpper (c : Char) : Char :=
  if 'a' ≤ c ∧ c ≤ 'z' then Char.ofNat (c.toNat - 32) else c

/-- ASCII lowercase of one character — Python `str.lower`. -/
def charLower (c : Char) : Char :=
  if 'A' ≤ c ∧ c ≤ 'Z' then Char.ofNat (c.toNat + 32) else c

/-- Python `s.upper()` (ASCII). -/
def strUpper (s : String) : String := String.mk (s.data.map charUpper)

/-- Python `s.lower()` (ASCII). -/
def strLower (s : String) : String := String.mk (s.data.map charLower)

/-- Python `s.strip()` (ASCII whitespace). -/
def pyStrip (s : String) : String := String.mk (stripPySpace s.data)

/-- Worker for `splitComma`. -/
def splitCommaGo : List Char → List Char → List String
  | [], acc => [String.mk acc.reverse]
  | c :: rest, acc =>
    if c == ',' then String.mk acc.reverse :: splitCommaGo rest []
    else splitCommaGo rest (c :: acc)

/-- Python `s.split(",")`. -/
def splitComma (s : String) : List String := splitCommaGo s.data []

/-- Value of a digit run (the caller checks the characters are digits). -/
def digitsNum (cs : List Char) : Nat :=
  cs.foldl (fun acc c => 10 * acc + (c.toNat - 48)) 0

/-- Python `int(s)` on a string: surrounding whitespace, an optional sign and a
nonempty digit run.  (The underscore grouping and non-decimal bases Python also
accepts do not occur in the repository's data and are not modelled.) -/
def pyInt (s : String) : Option Int :=
  let cs := stripPySpace s.data
  let p : Int × List Char :=
    match cs with
    | '+' :: r => (1, r)
    | '-' :: r => (-1, r)
    | r => (1, r)
  if !p.2.isEmpty && p.2.all Char.isDigit then some (p.1 * digitsNum p.2) else none

/-- Python `float(s)` restricted to plain decimal notation (optional sign,
digits, an optional point): the exact rational value.  Exponent, infinity and
nan forms do not occur here and are not modelled. -/
def pyFloat (s : String) : Option ℚ :=
  let cs := stripPySpace s.data
  let p : ℚ × List Char :=
    match cs with
    | '+' :: r => (1, r)
    | '-' :: r => (-1, r)
    | r => (1, r)
  let ip := p.2.takeWhile Char.isDigit
  let rest2 := p.2.drop ip.length
  match rest2 with
  | [] => if ip.isEmpty then none else some (p.1 * (digitsNum ip : ℚ))
  | '.' :: fp =>
      if fp.all Char.isDigit && !(ip.isEmpty && fp.isEmpty) then
        some (p.1 * ((digitsNum (ip ++ fp) : ℚ) / (10 : ℚ) ^ fp.length))
      else none
  | _ => none

/-- Python `round(x, n)` on the rational model (CPython rounds the binary double
half-to-even; all values met here are tie-free, where the two agree). -/
def roundTo (prec : Nat) (q : ℚ) : ℚ :=
  (scaledRound q prec : ℚ) / (10 : ℚ) ^ prec

/-- A Python scalar as produced by the poll-path coercion. -/
inductive PyScalar where
  | intVal (n : Int)
  | floatVal (q : ℚ)
  | strVal (s : String)
deriving DecidableEq

/-- `utils.get_numeric_value_if_possible`: try `int(value)`; on `ValueError`
try `float(value)` and round to `rounding_precision` places when
`round_floats` is set; if that fails too, return the value unchanged. -/
def get_numeric_value_if_possible (round_floats : Bool) (rounding_precision : Nat)
    (value : String) : PyScalar :=
  match pyInt value with
  | some n => .intVal n
  | none =>
    match pyFloat value with
    | some q => .floatVal (if round_floats then roundTo rounding_precision q else q)
    | none => .strVal value

/-! ## Configuration cache check (miniserver.py, load_miniserver_config) -/

/-- A Python runtime value as it occurs in the cache guard: the cached
`datetime` (modelled by a Nat timestamp) or the coroutine object returned by
calling the async `get_loxapp3_json_last_modified` without `await`. -/
inductive PyCacheVal where
  | datetimeVal (t : Nat)
  | coroutineVal
deriving DecidableEq

/-- Python's `>=` between runtime values: defined between two datetimes, a
TypeError between a datetime and a coroutine object. -/
def pyGe : PyCacheVal → PyCacheVal → Except String Bool
  | .datetimeVal a, .datetimeVal b => .ok (decide (b ≤ a))
  | _, _ => .error "TypeError: unsupported operand types for comparison"

/-- The cache guard of `load_miniserver_config` (miniserver.py line 246):
`use_cache and _loxapp3_cache_json_last_modified and
_loxapp3_cache_json_last_modified >= get_loxapp3_json_last_modified()`.
`get_loxapp3_json_last_modified` is an async function and the call is not
awaited, so the right operand of `>=` is a coroutine object, not a datetime.
`.ok b` models the guard evaluating to `b`; `.error e` models the raised
exception, which the function's outer handler logs and re-raises. -/
def cacheGuard (use_cache : Bool) (cacheTs : Option Nat) : Except String Bool :=
  if use_cache then
    match cacheTs with
    | none => .ok false
    | some t => pyGe (.datetimeVal t) .coroutineVal
  else .ok false

/-! ## Cache persistence (miniserver.py, load_miniserver_config persist block) -/

/-- Contents of the two on-disk cache files (none = file absent). -/
structure CacheFiles where
  xmlContent : Option String
  jsonContent : Option String
deriving DecidableEq

/-- Which write of the persist block fails, if any.  The block performs two
sequential awaited writes: first the structural XML document, then
LoxAPP3.json (miniserver.py lines 367-370); either one may raise an I/O
error. -/
inductive PersistFault where
  | noFault
  | xmlWriteFault
  | jsonWriteFault
deriving DecidableEq

/-- The persist block as a state transformer on the cache files: the pair is
the resulting on-disk state and whether the block ran to completion (false
models the write raising, which aborts the fetch).  A fault at the first
write leaves both files as they were; a fault at the second write occurs
after the XML file has already been rewritten. -/
def persistStep (st : CacheFiles) (newXml newJson : String) (fault : PersistFault) :
    CacheFiles × Bool :=
  match fault with
  | .xmlWriteFault => (st, false)
  | .jsonWriteFault => ({ st with xmlContent := some newXml }, false)
  | .noFault => (⟨some newXml, some newJson⟩, true)

/-! ## Metric writers (telegraf.py) -/

/-- State of `UDPTelegrafWriter`: the datagram transport (none before the
first successful connect) and the `_initialized` flag. -/
structure UDPWriterState where
  transport : Option Unit
  initialized : Bool
deriving DecidableEq

/-- `UDPTelegrafWriter.close`: best-effort close of the transport (exceptions
are swallowed) and reset of the `_initialized` flag; the `transport` field is
not cleared by the source. -/
def udpClose (st : UDPWriterState) : UDPWriterState :=
  { st with initialized := false }

/-- `UDPTelegrafWriter.connect`: on success install a fresh transport; on
failure log and re-raise (`connectFault` models `create_datagram_endpoint`
raising). -/
def udpConnect (st : UDPWriterState) (connectFault : Bool) :
    Except String UDPWriterState :=
  if connectFault then .error "Failed to create UDP endpoint for Telegraf"
  else .ok { st with transport := some () }

/-- `UDPTelegrafWriter.initialize`: connect unless already initialized. -/
def udpInitialize (st : UDPWriterState) (connectFault : Bool) :
    Except String UDPWriterState :=
  if st.initialized then .ok st
  else
    match udpConnect st connectFault with
    | .error e => .error e
    | .ok st1 => .ok { st1 with initialized := true }

/-- `UDPTelegrafWriter.write`: try `transport.sendto(point)`; on any exception
(including `transport` being None) log, close and re-initialize.  `sendFault`
models the send raising; `connectFault` models the recovery's connect
raising. -/
def udpWrite (st : UDPWriterState) (sendFault connectFault : Bool) :
    Except String UDPWriterState :=
  if st.transport.isSome && !sendFault then .ok st
  else udpInitialize (udpClose st) connectFault

/-! ## Filter rules (config.py, FilterConfig) -/

/-- `FilterConfig` after `__post_init__`: the two type lists are stored
uppercased; membership is all that is used of the Python sets. -/
structure FilterConfig where
  type_blacklist : List String
  type_whitelist : List String
  uuid_blacklist : List String
  uuid_whitelist : List String

/-- `FilterConfig.should_include_control`: with a non-empty type whitelist only
listed (uppercased) types pass and the type blacklist is ignored; with an
empty whitelist the blacklist excludes; then the same shape on the uuid
axis. -/
def FilterConfig.should_include_control (f : FilterConfig)
    (control_type uuid : String) : Bool :=
  let ct := strUpper control_type
  if (!f.type_whitelist.isEmpty && !f.type_whitelist.contains ct)
      || (f.type_whitelist.isEmpty && f.type_blacklist.contains ct) then
    false
  else if !f.uuid_whitelist.isEmpty then
    f.uuid_whitelist.contains uuid
  else
    !f.uuid_blacklist.contains uuid

/-- A control as `FilterConfig.filter_controls` sees it: its type string and,
for a sub-control, the parent uuid.  (The template fields of the control dict
play no role in filtering and are not modelled here.) -/
structure PyControl where
  type : String
  parent_uuid : Option String
deriving DecidableEq

/-- The inner `should_include` of `FilterConfig.filter_controls`: the basic
rule on the control itself and, for a sub-control, existence of the parent in
the input dict plus the basic rule on the parent. -/
def fcShouldInclude (f : FilterConfig) (controls : List (String × PyControl))
    (uuid : String) (control : PyControl) : Bool :=
  if !f.should_include_control control.type uuid then false
  else
    match control.parent_uuid with
    | none => true
    | some pu =>
      match List.lookup pu controls with
      | none => false
      | some parent => f.should_include_control parent.type pu

/-- `FilterConfig.filter_controls`: first every non-sub-control that passes,
then every sub-control that passes (dicts modelled as insertion-ordered
association lists with distinct keys). -/
def FilterConfig.filter_controls (f : FilterConfig)
    (controls : List (String × PyControl)) : List (String × PyControl) :=
  controls.filter (fun p => p.2.parent_uuid.isNone && fcShouldInclude f controls p.1 p.2)
    ++ controls.filter (fun p => p.2.parent_uuid.isSome && fcShouldInclude f controls p.1 p.2)

/-! ## Pre-parse XML repair (miniserver.py, correctXML_removeAttributeDuplicates) -/

/-- Search for `needle` in the remaining characters, returning the absolute
index (`pos` is the index of the head of the remaining list). -/
def findSubAux (needle : List Char) : List Char → Nat → Option Nat
  | [], pos => if needle.isEmpty then some pos else none
  | c :: rest, pos =>
    if needle.isPrefixOf (c :: rest) then some pos
    else findSubAux needle rest (pos + 1)

/-- Python `str.find(sub, start)` for a nonempty `sub` (the two needles of the
source, the tag pattern and `>`, are nonempty): the least index at or after
`start` where `sub` occurs. -/
def pyFind (s sub : String) (start : Nat) : Option Nat :=
  findSubAux sub.data (s.data.drop start) start

/-- Try the quoted alternative `\S+="[^"]*"` of the attribute regex at the
start of `cs` with the greedy `\S+` part of length exactly `k`. -/
def matchQuotedAt (cs : List Char) (k : Nat) : Option (List Char × List Char) :=
  if cs.getD k ' ' == '=' && cs.getD (k + 1) ' ' == '"' then
    let afterq := cs.drop (k + 2)
    let content := afterq.takeWhile (fun c => !(c == '"'))
    match afterq.drop content.length with
    | '"' :: rest => some (cs.take (k + 2 + content.length + 1), rest)
    | _ => none
  else none

/-- Try the unquoted alternative `\S+=[^"\s]+` at the start of `cs` with the
`\S+` part of length exactly `k`. -/
def matchUnquotedAt (cs : List Char) (k : Nat) : Option (List Char × List Char) :=
  if cs.getD k ' ' == '=' then
    let t := (cs.drop (k + 1)).takeWhile (fun c => !(c == '"') && !isPySpace c)
    if t.isEmpty then none
    else some (cs.take (k + 1 + t.length), cs.drop (k + 1 + t.length))
  else none

/-- Try split points `k, k-1, ..., 1` in order, as the regex engine backtracks
the greedy `\S+` from longest to shortest. -/
def tryFrom {α : Type} (f : Nat → Option α) : Nat → Option α
  | 0 => none
  | k + 1 =>
    match f (k + 1) with
    | some a => some a
    | none => tryFrom f k

/-- One match of the attribute pattern `(\S+="[^"]*"|\S+=[^"\s]+)` anchored at
the start of `cs`: the quoted alternative is tried first through all its
backtracks, then the unquoted one, as Python's alternation does. -/
def matchAttrToken (cs : List Char) : Option (List Char × List Char) :=
  let r := (cs.takeWhile (fun c => !isPySpace c)).length
  match tryFrom (matchQuotedAt cs) (r - 1) with
  | some m => some m
  | none => tryFrom (matchUnquotedAt cs) (r - 1)

/-- `re.findall` of the attribute pattern: scan left to right collecting
non-overlapping matches (every match consumes at least two characters, so
`fuel = cs.length` suffices). -/
def findAttrTokens : Nat → List Char → List String
  | 0, _ => []
  | _, [] => []
  | fuel + 1, c :: rest =>
    match matchAttrToken (c :: rest) with
    | some (tok, rest2) => String.mk tok :: findAttrTokens fuel rest2
    | none => findAttrTokens fuel rest

/-- The `re.findall(r'(\S+="[^"]*"|\S+=[^"\s]+)', tagstr)` call of the
source. -/
def findAttrs (tagstr : String) : List String :=
  findAttrTokens tagstr.data.length tagstr.data

/-- The dedup pass of `correctXML_removeAttributeDuplicates`: split each token
at its first `=` (tokens without `=` are skipped) and keep only the first
occurrence of each attribute name. -/
def dedupAttrsGo (seen : List String) : List String → List String
  | [] => []
  | a :: rest =>
    if a.data.contains '=' then
      let nm := String.mk (a.data.takeWhile (fun c => !(c == '=')))
      if seen.contains nm then dedupAttrsGo seen rest
      else a :: dedupAttrsGo (nm :: seen) rest
    else dedupAttrsGo seen rest

/-- Python slice `s[a:b]` with nonnegative bounds. -/
def strSlice (s : String) (a b : Nat) : String :=
  String.mk ((s.data.take b).drop a)

/-- Python slice `s[:b]`. -/
def strTo (s : String) (b : Nat) : String :=
  String.mk (s.data.take b)

/-- Python slice `s[a:]`. -/
def strFrom (s : String) (a : Nat) : String :=
  String.mk (s.data.drop a)

/-- The while-loop of `correctXML_removeAttributeDuplicates` (miniserver.py
lines 38-66): find the literal substring built from `elemType` (a plain
`str.find`, not a regex search), locate the closing `>`, collect the tag's
attribute tokens, and when deduplication dropped any, splice the joined
remainder back; then continue searching from one past the found position.
`fuel` is an explicit bound on the number of loop iterations (the source's
loop advances `startpos` by at least one per round; every input considered in
this development terminates well within `xmlstr.length + 1` rounds). -/
def correctXMLGo (elemType : String) : Nat → String → Nat → String
  | 0, xmlstr, _ => xmlstr
  | fuel + 1, xmlstr, startpos =>
    match pyFind xmlstr ("<C Type=\"" ++ elemType ++ "\"") startpos with
    | none => xmlstr
    | some foundpos =>
      match pyFind xmlstr ">" foundpos with
      | none => xmlstr
      | some endpos =>
        let tagstr := strSlice xmlstr (foundpos + 1) endpos
        let attributes := findAttrs tagstr
        let newattributeArray := dedupAttrsGo [] attributes
        let xmlstr2 :=
          if newattributeArray.length < attributes.length then
            strTo xmlstr (foundpos + 1) ++ String.intercalate " " newattributeArray
              ++ strFrom xmlstr endpos
          else xmlstr
        correctXMLGo elemType fuel xmlstr2 (foundpos + 1)

/-- `miniserver.correctXML_removeAttributeDuplicates`. -/
def correctXML_removeAttributeDuplicates (xmlstr elemType : String) : String :=
  correctXMLGo elemType (xmlstr.length + 1) xmlstr 0

/-- The invocation in `getControlsFromConfigXML` (miniserver.py line 211): the
three malformed element types are passed as a single regex-style alternation
string, which the literal `str.find` inside the function searches for
verbatim. -/
def repairMalformedAttributes (xmlstr : String) : String :=
  correctXML_removeAttributeDuplicates xmlstr "(LoxAIR|LoxAIRDevice|User)"

/-! ## The decompressor (miniserver.py, load_miniserver_config lines 296-355) -/

/-- Python slice bound: a negative index counts from the end, then the result
is clamped to the range 0..len. -/
def pySliceIdx (len : Nat) (i : Int) : Nat :=
  if i < 0 then ((len : Int) + i).toNat else min i.toNat len

/-- Python `b[i:j]` on byte strings. -/
def pySlice (xs : List Nat) (i j : Int) : List Nat :=
  (xs.take (pySliceIdx xs.length j)).drop (pySliceIdx xs.length i)

/-- Python `b[i:]` on byte strings. -/
def pySliceFrom (xs : List Nat) (i : Int) : List Nat :=
  xs.drop (pySliceIdx xs.length i)

/-- One iteration of the back-reference copy (miniserver.py lines 342-347),
with Python's negative-index slicing exactly as written: when
`-bytesBack + 1 == 0` (a back-distance of 1) append `resultStr[-bytesBack:]`,
otherwise append `resultStr[-bytesBack:-bytesBack+1]`. -/
def backRefStep (resultStr : List Nat) (bytesBack : Nat) : List Nat :=
  if -(bytesBack : Int) + 1 = 0 then
    resultStr ++ pySliceFrom resultStr (-(bytesBack : Int))
  else
    resultStr ++ pySlice resultStr (-(bytesBack : Int)) (-(bytesBack : Int) + 1)

/-- The back-reference copy loop: `bytesBackCopied` iterations of
`backRefStep`. -/
def backRefCopy (resultStr : List Nat) (bytesBack : Nat) : Nat → List Nat
  | 0 => resultStr
  | n + 1 => backRefCopy (backRefStep resultStr bytesBack) bytesBack n

/-- Step 7 of the spec read literally: append, one byte at a time, the byte at
output position `currentLength − D` (compared against `backRefCopy` in the
refinement theorem for the back-reference claim). -/
def backRefSpecStep (d : Nat) (o : List Nat) : List Nat :=
  o ++ [o.getD (o.length - d) 0]

/-- M single-byte appends per the spec's step 7. -/
def backRefSpec (o : List Nat) (d : Nat) : Nat → List Nat
  | 0 => o
  | n + 1 => backRefSpec (backRefSpecStep d o) d n

/-- The extension loops of the decompressor (miniserver.py 315-321 and
334-340): add payload bytes to the running count until the first byte that is
not 0xFF (that byte's value is still added); reading past the end raises
(`msg` distinguishes the IndexError of the literal-length loop from the
struct.error of the match-length loop). -/
def readExtension (msg : String) (acc : Nat) : List Nat → Except String (Nat × List Nat)
  | [] => .error msg
  | addByte :: rest =>
    if addByte = 0xff then readExtension msg (acc + addByte) rest
    else .ok (acc + addByte, rest)

/-- The decompression while-loop (miniserver.py lines 309-347) on the
remaining payload: read the control byte, optionally extend the literal
count, copy the literals (a clamping Python slice), stop if the payload is
exhausted, read the 2-byte little-endian back-distance, optionally extend the
match length, run the back-reference copy, repeat.  `fuel` bounds the number
of iterations; every iteration consumes at least the control byte, so
`payload.length + 1` always suffices and the `fuel = 0` case is
unreachable. -/
def decompressLoop : Nat → List Nat → List Nat → Except String (List Nat)
  | 0, _, _ => .error "fuel exhausted"
  | _ + 1, [], resultStr => .ok resultStr
  | fuel + 1, byte :: rest1, resultStr =>
    let copyBytes0 := byte >>> 4
    let lowNibble := byte &&& 0xf
    match (if copyBytes0 = 15 then readExtension "IndexError" copyBytes0 rest1
           else .ok (copyBytes0, rest1)) with
    | .error e => .error e
    | .ok (copyBytes, rest2) =>
      let resultStr1 := resultStr ++ rest2.take copyBytes
      match rest2.drop copyBytes with
      | [] => .ok resultStr1
      | [_] => .error "struct.error"
      | b0 :: b1 :: rest4 =>
        let bytesBack := b0 + 256 * b1
        match (if lowNibble = 15 then readExtension "struct.error" (4 + lowNibble) rest4
               else .ok (4 + lowNibble, rest4)) with
        | .error e => .error e
        | .ok (bytesBackCopied, rest5) =>
          decompressLoop fuel rest5 (backRefCopy resultStr1 bytesBack bytesBackCopied)

/-- One bit step of CRC-32 (reflected polynomial 0xEDB88320). -/
def crc32BitStep (c : Nat) : Nat :=
  if c % 2 = 1 then (c / 2) ^^^ 0xEDB88320 else c / 2

/-- Iterated bit steps. -/
def crc32Bits : Nat → Nat → Nat
  | 0, c => c
  | n + 1, c => crc32Bits n (crc32BitStep c)

/-- CRC-32 update by one byte. -/
def crc32Update (c b : Nat) : Nat := crc32Bits 8 (c ^^^ b % 256)

/-- `zlib.crc32` of a byte sequence (the standard CRC-32). -/
def crc32 (data : List Nat) : Nat :=
  (data.foldl crc32Update 0xFFFFFFFF) ^^^ 0xFFFFFFFF

/-- The decompressor on the LoxCC payload, after the caller has read the magic
and the three size words: run the loop, then verify the CRC-32 checksum and
then the uncompressed size, in the source's order.  The source raises a plain
Exception whose message names the failing check; the error strings mirror
those messages (the source's size message additionally interpolates the two
lengths). -/
def decompress (data : List Nat) (uncompressedSize checksum : Nat) :
    Except String (List Nat) :=
  match decompressLoop (data.length + 1) data [] with
  | .error e => .error e
  | .ok resultStr =>
    if checksum ≠ crc32 resultStr then .error "Checksum verification failed"
    else if resultStr.length ≠ uncompressedSize then
      .error "Uncompressed filesize mismatch"
    else .ok resultStr

/-! ## Registry construction (miniserver.py, extractControls) and the
value-state promotion (app.py, handle_value_states) -/

/-- Insert into an insertion-ordered dict: replace in place or append. -/
def dictInsert {α : Type} (d : List (String × α)) (k : String) (v : α) :
    List (String × α) :=
  match d with
  | [] => [(k, v)]
  | (k1, v1) :: rest => if k1 = k then (k, v) :: rest else (k1, v1) :: dictInsert rest k v

/-- Delete a key from a dict. -/
def dictErase {α : Type} (d : List (String × α)) (k : String) : List (String × α) :=
  d.filter (fun p => !(p.1 == k))

/-- Key membership in a dict. -/
def dictMem {α : Type} (k : String) (d : List (String × α)) : Bool :=
  (List.lookup k d).isSome

/-- The truthy-string normalisation of the visibility flags (miniserver.py
lines 101-102): strip, lowercase, membership in 1/true/yes. -/
def truthyFlag (s : String) : Bool :=
  let t := strLower (pyStrip s)
  t == "1" || t == "true" || t == "yes"

/-- The type blacklist of controls whose poll semantics are unsafe
(miniserver.py line 32). -/
def SYS_BLACKLIST : List String := ["VIRTUALTEXTIN"]

/-- Set insert (Python set semantics: no duplicates; the model fixes insertion
order, and the link move below is order-independent). -/
def setInsert (s : List String) (x : String) : List String :=
  if s.contains x then s else s ++ [x]

/-- Set union with a list of new elements. -/
def setUnion (s : List String) (xs : List String) : List String :=
  xs.foldl setInsert s

/-- A sub-element `<Co>`: its uuid and field key. -/
structure CoData where
  u : String
  k : String
deriving DecidableEq

/-- The `IoData` child of a control element, with the attributes read from it.
The `Cr`/`Pr` attributes feed only the category/room tags of the metric
templates, which are not modelled (see `CElem`). -/
structure IoDataAttrs where
  visu : String
  visuPwd : String
deriving DecidableEq

/-- A control element `<C Type=...>` with the attributes `extractControls`
reads for registry membership.  The title, description, display unit,
stats-type and analog attributes feed only the metric templates — byte
strings produced by the external influxdb_client library — and take no part
in registry membership; they are not modelled. -/
structure CElem where
  typeAttr : String
  u : String
  ioData : Option IoDataAttrs
  linkC : Option String
  cos : List CoData
deriving DecidableEq

/-- One value of the `controls` dict (the template fields `point`,
`point_websocket` and `pointInflux` omitted, as above): a sub-control entry
carries `parent_uuid` and no visibility flags, a top-level entry the
reverse. -/
structure ControlEntry where
  fieldkey : String
  type : String
  visu : Option Bool
  visuPwd : Option Bool
  parent_uuid : Option String
deriving DecidableEq

/-- Accumulator of `extractControls`: the three dicts and the set of uuids
linked from visible controls (named as in the source). -/
structure ExtractState where
  controls : List (String × ControlEntry)
  visu_controls : List (String × ControlEntry)
  non_visu_controls : List (String × ControlEntry)
  linkCofVisuControll : List String

/-- One step of the `<Co>` sub-element loop (miniserver.py lines 161-177),
acting on the pair (controls, visu_controls): the sub-entry always joins
`controls` and joins `visu_controls` exactly when the parent is visible. -/
def coStep (typeUpper uid : String) (is_visu_control : Bool)
    (acc : List (String × ControlEntry) × List (String × ControlEntry))
    (co : CoData) :
    List (String × ControlEntry) × List (String × ControlEntry) :=
  let centry : ControlEntry := ⟨co.k, typeUpper, none, none, some uid⟩
  (dictInsert acc.1 co.u centry,
    if is_visu_control then dictInsert acc.2 co.u centry else acc.2)

/-- One step of the trailing link-move loop (miniserver.py lines 180-183),
acting on the pair (visu_controls, non_visu_controls): a linked uuid present
in the non-visu dict moves into the visu dict. -/
def linkMoveStep
    (acc : List (String × ControlEntry) × List (String × ControlEntry))
    (u : String) :
    List (String × ControlEntry) × List (String × ControlEntry) :=
  match List.lookup u acc.2 with
  | some e => (dictInsert acc.1 u e, dictErase acc.2 u)
  | none => acc

/-- The body of the element loop of `extractControls` (miniserver.py lines
76-183) for one `<C Type=...>` element: the type-blacklist skip, the
truthy-string flag normalisation, the linked-uuid collection, the insert into
`controls` and into exactly one of `visu_controls` / `non_visu_controls` (the
system blacklist dropping non-visible entries entirely), the `<Co>`
sub-element loop (sub-entries join `visu_controls` only when the parent is
visible), and the trailing move of linked uuids from `non_visu_controls` to
`visu_controls` — the move loop sits inside the element loop in the
source. -/
def processElem (type_blacklist : List String) (st : ExtractState) (obj : CElem) :
    ExtractState :=
  if type_blacklist.contains (strUpper obj.typeAttr) then st
  else
    let uid := obj.u
    let visu := match obj.ioData with | some io => io.visu | none => ""
    let visuPwd := match obj.ioData with | some io => io.visuPwd | none => ""
    let is_visu_control := truthyFlag visu
    let is_visu_pwd_required := truthyFlag visuPwd
    let linkSet :=
      match obj.linkC with
      | some l =>
        if is_visu_control && !(l == "") then
          setUnion st.linkCofVisuControll (splitComma l)
        else st.linkCofVisuControll
      | none => st.linkCofVisuControll
    let entry : ControlEntry :=
      ⟨"Default", strUpper obj.typeAttr, some is_visu_control,
        some is_visu_pwd_required, none⟩
    let controls1 := dictInsert st.controls uid entry
    let visu1 :=
      if is_visu_control then dictInsert st.visu_controls uid entry
      else st.visu_controls
    let nonvisu1 :=
      if is_visu_control then st.non_visu_controls
      else if SYS_BLACKLIST.contains (strUpper obj.typeAttr) then st.non_visu_controls
      else dictInsert st.non_visu_controls uid entry
    let afterCos :=
      obj.cos.foldl (coStep (strUpper obj.typeAttr) uid is_visu_control) (controls1, visu1)
    let moved := linkSet.foldl linkMoveStep (afterCos.2, nonvisu1)
    ⟨afterCos.1, moved.1, moved.2, linkSet⟩

/-- `extractControls`: fold the element loop over the document's control
elements, returning the three registries — `controls`, `visu_controls` (the
push-subscribed set) and `non_visu_controls` (the poll-subscribed set). -/
def extractControls (type_blacklist : List String) (elems : List CElem) :
    List (String × ControlEntry) × List (String × ControlEntry)
      × List (String × ControlEntry) :=
  let st := elems.foldl (processElem type_blacklist) ⟨[], [], [], []⟩
  (st.controls, st.visu_controls, st.non_visu_controls)

/-- The self-healing branch of `LoxInfluxBridge.handle_value_states` (app.py
lines 53-58): on a KeyError for `uuid` in `websocket_controls`, when the uuid
is present in the overall `controls` dict it is inserted into
`websocket_controls`; the grabber dict is never consulted. -/
def promoteControl (controls websocket_controls : List (String × ControlEntry))
    (uuid : String) : List (String × ControlEntry) :=
  if dictMem uuid websocket_controls then websocket_controls
  else
    match List.lookup uuid controls with
    | some e => dictInsert websocket_controls uuid e
    | none => websocket_controls

/-- All uuids an element contributes: its own and its sub-elements'. -/
def elemUids (obj : CElem) : List String :=
  obj.u :: obj.cos.map CoData.u

/-- All uuids of a document's elements. -/
def docUids (elems : List CElem) : List String :=
  (elems.map elemUids).flatten

/-- Disjointness of the key sets of two registries. -/
def DisjointDicts (v nv : List (String × ControlEntry)) : Prop :=
  ∀ u, dictMem u v = true → dictMem u nv = true → False

/-! ## Helper lemmas -/

theorem lookup_cons_eq {α : Type} (k u : String) (v : α) (rest : List (String × α)) :
    List.lookup u ((k, v) :: rest) = if u = k then some v else List.lookup u rest := by
  by_cases h : u = k
  · subst h; simp [List.lookup]
  · have hb : (u == k) = false := by simp [h]
    simp [List.lookup, hb, h]

theorem lookup_dictInsert {α : Type} (d : List (String × α)) (k u : String) (v : α) :
    List.lookup u (dictInsert d k v) = if u = k then some v else List.lookup u d := by
  induction d with
  | nil =>
    show List.lookup u [(k, v)] = _
    rw [lookup_cons_eq]
  | cons p rest ih =>
    obtain ⟨k1, v1⟩ := p
    show List.lookup u (if k1 = k then (k, v) :: rest else (k1, v1) :: dictInsert rest k v) = _
    by_cases h : k1 = k
    · subst h
      rw [if_pos rfl, lookup_cons_eq, lookup_cons_eq]
      by_cases h2 : u = k1 <;> simp [h2]
    · rw [if_neg h, lookup_cons_eq, ih, lookup_cons_eq]
      by_cases h2 : u = k1 <;> by_cases h3 : u = k <;> simp_all

theorem lookup_dictErase {α : Type} (d : List (String × α)) (k u : String) :
    List.lookup u (dictErase d k) = if u = k then none else List.lookup u d := by
  induction d with
  | nil => by_cases h : u = k <;> simp [dictErase, List.lookup, h]
  | cons p rest ih =>
    obtain ⟨k1, v1⟩ := p
    show List.lookup u (List.filter (fun p => !(p.1 == k)) ((k1, v1) :: rest)) = _
    rw [List.filter_cons]
    by_cases h : k1 = k
    · have hb : (!((k1, v1).1 == k)) = false := by simp [h]
      rw [hb]
      simp only [Bool.false_eq_true, if_false]
      rw [dictErase] at ih
      rw [ih]
      subst h
      by_cases h2 : u = k1 <;> simp [h2, lookup_cons_eq]
    · have hb : (!((k1, v1).1 == k)) = true := by simp [h]
      rw [hb]
      simp only [if_true]
      rw [lookup_cons_eq]
      rw [dictErase] at ih
      rw [ih, lookup_cons_eq]
      by_cases h2 : u = k1 <;> by_cases h3 : u = k <;> simp_all

theorem dictMem_dictInsert {α : Type} (d : List (String × α)) (k u : String) (v : α) :
    dictMem u (dictInsert d k v) = true ↔ u = k ∨ dictMem u d = true := by
  rw [dictMem, lookup_dictInsert]
  by_cases h : u = k <;> simp [h, dictMem]

theorem dictMem_dictErase {α : Type} (d : List (String × α)) (k u : String) :
    dictMem u (dictErase d k) = true ↔ u ≠ k ∧ dictMem u d = true := by
  rw [dictMem, lookup_dictErase]
  by_cases h : u = k <;> simp [h, dictMem]

theorem dictMem_of_lookup {α : Type} (d : List (String × α)) (u : String) (v : α)
    (h : List.lookup u d = some v) : dictMem u d = true := by
  rw [dictMem, h]; rfl

theorem take_drop_singleton (o : List Nat) :
    ∀ k, k < o.length → (o.take (k + 1)).drop k = [o.getD k 0] := by
  induction o with
  | nil => intro k h; simp at h
  | cons a rest ih =>
    intro k h
    cases k with
    | zero => simp
    | succ n =>
      have := ih n (by simpa using Nat.lt_of_succ_lt_succ h)
      simpa using this

theorem backRefStep_eq (o : List Nat) (d : Nat) (h1 : 1 ≤ d) (h2 : d ≤ o.length) :
    backRefStep o d = o ++ [o.getD (o.length - d) 0] := by
  rcases Nat.lt_or_ge 1 d with hd | hd
  · have hcond : ¬(-(d : Int) + 1 = 0) := by omega
    rw [backRefStep, if_neg hcond]
    congr 1
    have hi : pySliceIdx o.length (-(d : Int)) = o.length - d := by
      rw [pySliceIdx, if_pos (by omega)]; omega
    have hj : pySliceIdx o.length (-(d : Int) + 1) = o.length - d + 1 := by
      rw [pySliceIdx, if_pos (by omega)]; omega
    rw [pySlice, hi, hj]
    exact take_drop_singleton o (o.length - d) (by omega)
  · have hd1 : d = 1 := by omega
    have hcond : (-(d : Int) + 1 = 0) := by omega
    rw [backRefStep, if_pos hcond]
    congr 1
    have hi : pySliceIdx o.length (-(d : Int)) = o.length - 1 := by
      rw [pySliceIdx, if_pos (by omega)]; omega
    rw [pySliceFrom, hi]
    have := take_drop_singleton o (o.length - 1) (by omega)
    rw [Nat.sub_add_cancel (by omega), List.take_length] at this
    rw [this, hd1]

theorem backRefCopy_spec (d : Nat) (h1 : 1 ≤ d) :
    ∀ (m : Nat) (o : List Nat), d ≤ o.length → backRefCopy o d m = backRefSpec o d m := by
  intro m
  induction m with
  | zero => intro o h; rfl
  | succ n ih =>
    intro o h
    show backRefCopy (backRefStep o d) d n = backRefSpec (backRefSpecStep d o) d n
    rw [backRefStep_eq o d h1 h]
    exact ih (backRefSpecStep d o) (by simp [backRefSpecStep]; omega)

theorem getD_append_length (o : List Nat) (x : Nat) :
    (o ++ [x]).getD o.length 0 = x := by
  induction o with
  | nil => rfl
  | cons a rest ih => simp [ih]

theorem backRefSpec_one :
    ∀ (m : Nat) (o : List Nat), o ≠ [] →
      backRefSpec o 1 m = o ++ List.replicate m (o.getD (o.length - 1) 0) := by
  intro m
  induction m with
  | zero => intro o h; simp [backRefSpec]
  | succ n ih =>
    intro o h
    show backRefSpec (backRefSpecStep 1 o) 1 n = _
    rw [ih (backRefSpecStep 1 o) (by simp [backRefSpecStep])]
    rw [backRefSpecStep]
    have hx : (o ++ [o.getD (o.length - 1) 0]).getD
        ((o ++ [o.getD (o.length - 1) 0]).length - 1) 0 = o.getD (o.length - 1) 0 := by
      have hl : (o ++ [o.getD (o.length - 1) 0]).length - 1 = o.length := by simp
      rw [hl]
      exact getD_append_length o _
    rw [hx]
    simp [List.replicate_succ]

theorem mem_filter_controls_iff (f : FilterConfig)
    (controls : List (String × PyControl)) (uuid : String) (c : PyControl) :
    (uuid, c) ∈ f.filter_controls controls ↔
      ((uuid, c) ∈ controls ∧ fcShouldInclude f controls uuid c = true) := by
  simp only [FilterConfig.filter_controls, List.mem_append, List.mem_filter,
    Bool.and_eq_true]
  cases h : c.parent_uuid <;> simp [h, Option.isNone, Option.isSome]

theorem linkMove_fold_inv (links : List String) :
    ∀ (v nv : List (String × ControlEntry)),
      DisjointDicts v nv →
      DisjointDicts (links.foldl linkMoveStep (v, nv)).1
          (links.foldl linkMoveStep (v, nv)).2 ∧
        (∀ u, dictMem u (links.foldl linkMoveStep (v, nv)).1 = true →
          dictMem u v = true ∨ dictMem u nv = true) ∧
        (∀ u, dictMem u (links.foldl linkMoveStep (v, nv)).2 = true →
          dictMem u nv = true) := by
  induction links with
  | nil => intro v nv hd; exact ⟨hd, fun u h => Or.inl h, fun u h => h⟩
  | cons l rest ih =>
    intro v nv hd
    rw [List.foldl_cons]
    rcases hl : List.lookup l nv with _ | e
    · have hstep : linkMoveStep (v, nv) l = (v, nv) := by simp [linkMoveStep, hl]
      rw [hstep]
      exact ih v nv hd
    · have hstep : linkMoveStep (v, nv) l = (dictInsert v l e, dictErase nv l) := by
        simp [linkMoveStep, hl]
      have hd2 : DisjointDicts (dictInsert v l e) (dictErase nv l) := by
        intro u h1 h2
        rw [dictMem_dictInsert] at h1
        rw [dictMem_dictErase] at h2
        rcases h1 with h1 | h1
        · exact h2.1 h1
        · exact hd u h1 h2.2
      have hrec := ih (dictInsert v l e) (dictErase nv l) hd2
      rw [hstep]
      refine ⟨hrec.1, ?_, ?_⟩
      · intro u hu
        rcases hrec.2.1 u hu with h | h
        · rcases (dictMem_dictInsert _ _ _ _).mp h with h | h
          · exact Or.inr (h ▸ dictMem_of_lookup _ _ _ hl)
          · exact Or.inl h
        · exact Or.inr ((dictMem_dictErase _ _ _).mp h).2
      · intro u hu
        exact ((dictMem_dictErase _ _ _).mp (hrec.2.2 u hu)).2

theorem coStep_fold_inv (tU uid : String) (isv : Bool) (cos : List CoData) :
    ∀ (cv : List (String × ControlEntry) × List (String × ControlEntry))
      (nv : List (String × ControlEntry)),
      DisjointDicts cv.2 nv →
      (∀ co ∈ cos, dictMem co.u nv = false) →
      DisjointDicts (cos.foldl (coStep tU uid isv) cv).2 nv ∧
        (∀ u, dictMem u (cos.foldl (coStep tU uid isv) cv).2 = true →
          dictMem u cv.2 = true ∨ u ∈ cos.map CoData.u) := by
  induction cos with
  | nil => intro cv nv hd hf; exact ⟨hd, fun u h => Or.inl h⟩
  | cons co rest ih =>
    intro cv nv hd hf
    rw [List.foldl_cons]
    have hco : dictMem co.u nv = false := hf co (by simp)
    have hmem2 : ∀ u, dictMem u (coStep tU uid isv cv co).2 = true →
        u = co.u ∨ dictMem u cv.2 = true := by
      intro u h1
      simp only [coStep] at h1
      by_cases hv : isv = true
      · rw [hv] at h1
        rw [if_pos rfl] at h1
        exact (dictMem_dictInsert _ _ _ _).mp h1
      · rw [Bool.not_eq_true] at hv
        rw [hv] at h1
        rw [if_neg Bool.false_ne_true] at h1
        exact Or.inr h1
    have hd2 : DisjointDicts (coStep tU uid isv cv co).2 nv := by
      intro u h1 h2
      rcases hmem2 u h1 with h | h
      · rw [h] at h2; rw [h2] at hco; exact Bool.noConfusion hco
      · exact hd u h h2
    have hrec := ih (coStep tU uid isv cv co) nv hd2 (fun c hc => hf c (by simp [hc]))
    refine ⟨hrec.1, ?_⟩
    intro u hu
    rcases hrec.2 u hu with h | h
    · rcases hmem2 u h with h | h
      · exact Or.inr (by simp [h])
      · exact Or.inl h
    · exact Or.inr (by simp [h])

theorem registries_core_inv
    (uid : String) (isv : Bool) (entry : ControlEntry) (tU : String)
    (cos : List CoData) (links : List String) (sysbl : Bool)
    (C V NV : List (String × ControlEntry)) (S : List String)
    (hd : DisjointDicts V NV)
    (hdomV : ∀ u, dictMem u V = true → u ∈ S)
    (hdomNV : ∀ u, dictMem u NV = true → u ∈ S)
    (huid : ¬ uid ∈ S)
    (hcos : ∀ cu ∈ cos.map CoData.u, ¬ cu ∈ S ∧ cu ≠ uid) :
    DisjointDicts
        (links.foldl linkMoveStep
          ((cos.foldl (coStep tU uid isv)
              (C, if isv then dictInsert V uid entry else V)).2,
            if isv then NV
            else if sysbl then NV else dictInsert NV uid entry)).1
        (links.foldl linkMoveStep
          ((cos.foldl (coStep tU uid isv)
              (C, if isv then dictInsert V uid entry else V)).2,
            if isv then NV
            else if sysbl then NV else dictInsert NV uid entry)).2 ∧
      (∀ u,
        dictMem u
            (links.foldl linkMoveStep
              ((cos.foldl (coStep tU uid isv)
                  (C, if isv then dictInsert V uid entry else V)).2,
                if isv then NV
                else if sysbl then NV else dictInsert NV uid entry)).1 = true ∨
          dictMem u
              (links.foldl linkMoveStep
                ((cos.foldl (coStep tU uid isv)
                    (C, if isv then dictInsert V uid entry else V)).2,
                  if isv then NV
                  else if sysbl then NV else dictInsert NV uid entry)).2 = true →
        u ∈ S ∨ u = uid ∨ u ∈ cos.map CoData.u) := by
  set v1 := if isv then dictInsert V uid entry else V with hv1
  set nv1 := if isv then NV else if sysbl then NV else dictInsert NV uid entry with hnv1
  set ac := cos.foldl (coStep tU uid isv) (C, v1) with hac
  have hdomv1 : ∀ u, dictMem u v1 = true → u ∈ S ∨ u = uid := by
    intro u h1
    rw [hv1] at h1
    by_cases hv : isv = true
    · rw [hv, if_pos rfl] at h1
      rcases (dictMem_dictInsert _ _ _ _).mp h1 with h | h
      · exact Or.inr h
      · exact Or.inl (hdomV u h)
    · rw [Bool.not_eq_true] at hv
      rw [hv, if_neg Bool.false_ne_true] at h1
      exact Or.inl (hdomV u h1)
  have hdomnv1 : ∀ u, dictMem u nv1 = true → u ∈ S ∨ u = uid := by
    intro u h1
    rw [hnv1] at h1
    by_cases hv : isv = true
    · rw [hv, if_pos rfl] at h1
      exact Or.inl (hdomNV u h1)
    · rw [Bool.not_eq_true] at hv
      rw [hv, if_neg Bool.false_ne_true] at h1
      by_cases hs : sysbl = true
      · rw [hs, if_pos rfl] at h1
        exact Or.inl (hdomNV u h1)
      · rw [Bool.not_eq_true] at hs
        rw [hs, if_neg Bool.false_ne_true] at h1
        rcases (dictMem_dictInsert _ _ _ _).mp h1 with h | h
        · exact Or.inr h
        · exact Or.inl (hdomNV u h)
  have hd1 : DisjointDicts v1 nv1 := by
    intro u h1 h2
    rw [hv1] at h1
    rw [hnv1] at h2
    by_cases hv : isv = true
    · rw [hv, if_pos rfl] at h1
      rw [hv, if_pos rfl] at h2
      rcases (dictMem_dictInsert _ _ _ _).mp h1 with h | h
      · exact huid (h ▸ hdomNV u h2)
      · exact hd u h h2
    · rw [Bool.not_eq_true] at hv
      rw [hv, if_neg Bool.false_ne_true] at h1
      rw [hv, if_neg Bool.false_ne_true] at h2
      by_cases hs : sysbl = true
      · rw [hs, if_pos rfl] at h2
        exact hd u h1 h2
      · rw [Bool.not_eq_true] at hs
        rw [hs, if_neg Bool.false_ne_true] at h2
        rcases (dictMem_dictInsert _ _ _ _).mp h2 with h | h
        · exact huid (h ▸ hdomV u h1)
        · exact hd u h1 h
  have hfcos : ∀ co ∈ cos, dictMem co.u nv1 = false := by
    intro co hc
    cases hb : dictMem co.u nv1 with
    | false => rfl
    | true =>
      exfalso
      have hcu : co.u ∈ cos.map CoData.u := List.mem_map_of_mem CoData.u hc
      rcases hdomnv1 co.u hb with h | h
      · exact (hcos co.u hcu).1 h
      · exact (hcos co.u hcu).2 h
  have hco := coStep_fold_inv tU uid isv cos (C, v1) nv1 hd1 hfcos
  have hmv := linkMove_fold_inv links ac.2 nv1 hco.1
  refine ⟨hmv.1, ?_⟩
  intro u hu
  rcases hu with hu | hu
  · rcases hmv.2.1 u hu with h | h
    · rcases hco.2 u h with h | h
      · rcases hdomv1 u h with h | h
        · exact Or.inl h
        · exact Or.inr (Or.inl h)
      · exact Or.inr (Or.inr h)
    · rcases hdomnv1 u h with h | h
      · exact Or.inl h
      · exact Or.inr (Or.inl h)
  · rcases hdomnv1 u (hmv.2.2 u hu) with h | h
    · exact Or.inl h
    · exact Or.inr (Or.inl h)

theorem processElem_inv (tb : List String) (st : ExtractState) (obj : CElem)
    (S : List String)
    (hd : DisjointDicts st.visu_controls st.non_visu_controls)
    (hdom : ∀ u, dictMem u st.visu_controls = true ∨
      dictMem u st.non_visu_controls = true → u ∈ S)
    (hfresh : ∀ u ∈ elemUids obj, ¬ u ∈ S)
    (hnodup : (elemUids obj).Nodup) :
    DisjointDicts (processElem tb st obj).visu_controls
        (processElem tb st obj).non_visu_controls ∧
      (∀ u, dictMem u (processElem tb st obj).visu_controls = true ∨
            dictMem u (processElem tb st obj).non_visu_controls = true →
        u ∈ S ++ elemUids obj) := by
  by_cases hbl : tb.contains (strUpper obj.typeAttr) = true
  · have hpe : processElem tb st obj = st := by rw [processElem, if_pos hbl]
    rw [hpe]
    exact ⟨hd, fun u hu => List.mem_append_left _ (hdom u hu)⟩
  · rw [Bool.not_eq_true] at hbl
    have huid : ¬ obj.u ∈ S := hfresh obj.u (by simp [elemUids])
    have hcos : ∀ cu ∈ obj.cos.map CoData.u, ¬ cu ∈ S ∧ cu ≠ obj.u := by
      intro cu hcu
      refine ⟨hfresh cu (by simp [elemUids, hcu]), ?_⟩
      have hn := hnodup
      rw [elemUids, List.nodup_cons] at hn
      intro he
      exact hn.1 (he ▸ hcu)
    have hcore := registries_core_inv obj.u
      (truthyFlag (match obj.ioData with | some io => io.visu | none => ""))
      ⟨"Default", strUpper obj.typeAttr,
        some (truthyFlag (match obj.ioData with | some io => io.visu | none => "")),
        some (truthyFlag (match obj.ioData with | some io => io.visuPwd | none => "")),
        none⟩
      (strUpper obj.typeAttr) obj.cos
      (match obj.linkC with
        | some l =>
          if truthyFlag (match obj.ioData with | some io => io.visu | none => "") &&
              !(l == "") then
            setUnion st.linkCofVisuControll (splitComma l)
          else st.linkCofVisuControll
        | none => st.linkCofVisuControll)
      (SYS_BLACKLIST.contains (strUpper obj.typeAttr))
      (dictInsert st.controls obj.u
        ⟨"Default", strUpper obj.typeAttr,
          some (truthyFlag (match obj.ioData with | some io => io.visu | none => "")),
          some (truthyFlag (match obj.ioData with | some io => io.visuPwd | none => "")),
          none⟩)
      st.visu_controls st.non_visu_controls S
      hd (fun u h => hdom u (Or.inl h)) (fun u h => hdom u (Or.inr h)) huid hcos
    simp only [processElem, hbl, Bool.false_eq_true, if_false]
    refine ⟨hcore.1, ?_⟩
    intro u hu
    rcases hcore.2 u hu with h | h
    · exact List.mem_append_left _ h
    · refine List.mem_append_right _ ?_
      rw [elemUids]
      rcases h with h | h
      · exact h ▸ List.mem_cons_self _ _
      · exact List.mem_cons_of_mem _ h

theorem extract_fold_inv (tb : List String) :
    ∀ (elems : List CElem) (st : ExtractState) (S : List String),
      DisjointDicts st.visu_controls st.non_visu_controls →
      (∀ u, dictMem u st.visu_controls = true ∨
        dictMem u st.non_visu_controls = true → u ∈ S) →
      (∀ u ∈ docUids elems, ¬ u ∈ S) →
      (docUids elems).Nodup →
      DisjointDicts (elems.foldl (processElem tb) st).visu_controls
          (elems.foldl (processElem tb) st).non_visu_controls ∧
        (∀ u, dictMem u (elems.foldl (processElem tb) st).visu_controls = true ∨
              dictMem u (elems.foldl (processElem tb) st).non_visu_controls = true →
          u ∈ S ++ docUids elems) := by
  intro elems
  induction elems with
  | nil =>
    intro st S hd hdom _ _
    exact ⟨hd, fun u hu => List.mem_append_left _ (hdom u hu)⟩
  | cons obj rest ih =>
    intro st S hd hdom hfr hnd
    rw [List.foldl_cons]
    have hsplit : docUids (obj :: rest) = elemUids obj ++ docUids rest := by
      simp [docUids]
    rw [hsplit] at hfr hnd
    rw [List.nodup_append] at hnd
    have hpe := processElem_inv tb st obj S hd hdom
      (fun u hu => hfr u (List.mem_append_left _ hu)) hnd.1
    have hrec := ih (processElem tb st obj) (S ++ elemUids obj) hpe.1 hpe.2
      (fun u hu => by
        intro hmem
        rcases List.mem_append.mp hmem with hm | hm
        · exact hfr u (List.mem_append_right _ hu) hm
        · exact hnd.2.2 hm hu)
      hnd.2.1
    refine ⟨hrec.1, ?_⟩
    intro u hu
    have hin := hrec.2 u hu
    rw [List.append_assoc] at hin
    rw [hsplit]
    exact hin


/-! ## Claim theorems -/

/-- C1: in the decompressor's back-reference step, for every decode state with
output of length n and back-distance D with 1 ≤ D ≤ n, each of the M copied
bytes is appended one at a time and equals the byte at output position
(current length − D) at the moment it is copied (`backRefSpec` is exactly that
reading of the spec's step 7), so that with D = 1 the copy appends M copies of
the last output byte — the run-length behaviour. -/
theorem c1_backref_copy (out : List Nat) (d m : Nat)
    (h1 : 1 ≤ d) (h2 : d ≤ out.length) :
    backRefCopy out d m = backRefSpec out d m ∧
      (d = 1 → backRefCopy out d m =
        out ++ List.replicate m (out.getD (out.length - 1) 0)) := by
  refine ⟨backRefCopy_spec d h1 m out h2, ?_⟩
  intro hd1
  subst hd1
  rw [backRefCopy_spec 1 h1 m out h2]
  exact backRefSpec_one m out (by intro hh; rw [hh] at h2; simp at h2)

/-- Witness for the back-reference theorem: distance 1 over output [7, 8]
with three copied bytes. -/
theorem c1_backref_copy_witness :
    backRefCopy [7, 8] 1 3 = backRefSpec [7, 8] 1 3 ∧
      (1 = 1 → backRefCopy [7, 8] 1 3 =
        [7, 8] ++ List.replicate 3 ([7, 8].getD ([7, 8].length - 1) 0)) :=
  c1_backref_copy [7, 8] 1 3 (by decide) (by decide)

/-- C2: once the decompression loop has assembled the output, a CRC-32
mismatch fails with the error naming the checksum check; with the checksum
right, a length mismatch fails with the error naming the size check; and when
both checks pass the decoded bytes are returned.  (The source raises plain
Exceptions whose messages name the failing check — the spec's FormatError;
the messages are modelled as the error strings.) -/
theorem c2_postcondition_checks (data : List Nat) (size checksum : Nat)
    (out : List Nat)
    (h : decompressLoop (data.length + 1) data [] = .ok out) :
    (checksum ≠ crc32 out →
      decompress data size checksum = .error "Checksum verification failed") ∧
      (checksum = crc32 out → out.length ≠ size →
        decompress data size checksum = .error "Uncompressed filesize mismatch") ∧
      (checksum = crc32 out → out.length = size →
        decompress data size checksum = .ok out) := by
  unfold decompress
  rw [h]
  refine ⟨?_, ?_, ?_⟩ <;> intros <;> simp_all

/-- Witness for the post-condition theorem: the payload [0x20, A, B, 1, 0]
decodes to ABBBBB, whose CRC-32 is 1332459360 and length 6. -/
theorem c2_postcondition_checks_witness :
    (1332459360 ≠ crc32 [65, 66, 66, 66, 66, 66] →
      decompress [32, 65, 66, 1, 0] 6 1332459360 =
        .error "Checksum verification failed") ∧
      (1332459360 = crc32 [65, 66, 66, 66, 66, 66] →
        [65, 66, 66, 66, 66, 66].length ≠ 6 →
        decompress [32, 65, 66, 1, 0] 6 1332459360 =
          .error "Uncompressed filesize mismatch") ∧
      (1332459360 = crc32 [65, 66, 66, 66, 66, 66] →
        [65, 66, 66, 66, 66, 66].length = 6 →
        decompress [32, 65, 66, 1, 0] 6 1332459360 =
          .ok [65, 66, 66, 66, 66, 66]) :=
  c2_postcondition_checks [32, 65, 66, 1, 0] 6 1332459360
    [65, 66, 66, 66, 66, 66] (by decide)

/-- C3: membership in the filtered collection is exactly membership in the
input plus the inner rule; with a non-empty type whitelist an absent
(uppercased) type is excluded regardless of the blacklists; with an empty
type whitelist a blacklisted type is excluded; the uuid whitelist/blacklist
behave the same way on the uuid axis; and a sub-control is included only if
its parent exists in the input dict and both it and the parent pass the basic
rule. -/
theorem c3_filter_rule_semantics (f : FilterConfig)
    (controls : List (String × PyControl)) (uuid : String) (c : PyControl) :
    ((uuid, c) ∈ f.filter_controls controls ↔
      ((uuid, c) ∈ controls ∧ fcShouldInclude f controls uuid c = true)) ∧
      (f.type_whitelist ≠ [] →
        f.type_whitelist.contains (strUpper c.type) = false →
        (uuid, c) ∉ f.filter_controls controls) ∧
      (f.type_whitelist = [] →
        f.type_blacklist.contains (strUpper c.type) = true →
        (uuid, c) ∉ f.filter_controls controls) ∧
      (f.uuid_whitelist ≠ [] → f.uuid_whitelist.contains uuid = false →
        (uuid, c) ∉ f.filter_controls controls) ∧
      (f.uuid_whitelist = [] → f.uuid_blacklist.contains uuid = true →
        (uuid, c) ∉ f.filter_controls controls) ∧
      (∀ pu, c.parent_uuid = some pu → (uuid, c) ∈ f.filter_controls controls →
        ∃ p, List.lookup pu controls = some p ∧
          f.should_include_control p.type pu = true ∧
          f.should_include_control c.type uuid = true) := by
  refine ⟨mem_filter_controls_iff f controls uuid c, ?_, ?_, ?_, ?_, ?_⟩
  · intro hw hc hmem
    rw [mem_filter_controls_iff] at hmem
    have h2 := hmem.2
    have hie : f.type_whitelist.isEmpty = false := by
      cases hW : f.type_whitelist with
      | nil => exact absurd hW hw
      | cons a l => rfl
    have hnm : strUpper c.type ∉ f.type_whitelist := by simpa using hc
    simp [fcShouldInclude, FilterConfig.should_include_control, hie, hnm] at h2
  · intro hw hc hmem
    rw [mem_filter_controls_iff] at hmem
    have h2 := hmem.2
    have hbm : strUpper c.type ∈ f.type_blacklist := by simpa using hc
    simp [fcShouldInclude, FilterConfig.should_include_control, hw, hbm] at h2
  · intro hw hc hmem
    rw [mem_filter_controls_iff] at hmem
    have h2 := hmem.2
    have hie : f.uuid_whitelist.isEmpty = false := by
      cases hW : f.uuid_whitelist with
      | nil => exact absurd hW hw
      | cons a l => rfl
    have hnm : uuid ∉ f.uuid_whitelist := by simpa using hc
    simp [fcShouldInclude, FilterConfig.should_include_control, hie, hnm] at h2
  · intro hw hc hmem
    rw [mem_filter_controls_iff] at hmem
    have h2 := hmem.2
    have hbm : uuid ∈ f.uuid_blacklist := by simpa using hc
    simp [fcShouldInclude, FilterConfig.should_include_control, hw, hbm] at h2
  · intro pu hpu hmem
    rw [mem_filter_controls_iff] at hmem
    have h2 := hmem.2
    rw [fcShouldInclude, hpu] at h2
    by_cases hb : f.should_include_control c.type uuid = true
    · simp only [hb, Bool.not_true, if_false] at h2
      cases hl : List.lookup pu controls with
      | none => rw [hl] at h2; simp at h2
      | some p => rw [hl] at h2; exact ⟨p, rfl, h2, hb⟩
    · rw [Bool.not_eq_true] at hb
      simp [hb] at h2

/-- C4 counterexample: a single non-visible control X lands in the
poll-subscribed (grabber) registry after a build; a value-state event for X
then promotes it into the push-subscribed (websocket) registry while it stays
poll-subscribed, so after the promotion the two registries both contain X —
the claimed preservation of disjointness by the handler fails. -/
theorem c4_promotion_breaks_disjointness :
    (dictMem "X"
        (extractControls [] [⟨"InfoOnlyAnalog", "X", none, none, []⟩]).2.1 = false) ∧
      (dictMem "X"
        (extractControls [] [⟨"InfoOnlyAnalog", "X", none, none, []⟩]).2.2 = true) ∧
      (dictMem "X"
        (promoteControl (extractControls [] [⟨"InfoOnlyAnalog", "X", none, none, []⟩]).1
          (extractControls [] [⟨"InfoOnlyAnalog", "X", none, none, []⟩]).2.1
          "X") = true) := by decide

/-- C4 (amended): after every build from a document whose uuids are pairwise
distinct, the push-subscribed and poll-subscribed registries are disjoint;
and the value-state handler's promotion preserves that disjointness exactly
when the promoted uuid is not in the poll-subscribed registry (promoting a
poll-subscribed uuid, as the counterexample shows, breaks it — the handler
never consults the poll registry). -/
theorem c4_registry_disjointness (tb : List String) (elems : List CElem)
    (h : (docUids elems).Nodup) :
    (∀ u, dictMem u (extractControls tb elems).2.1 = true →
      dictMem u (extractControls tb elems).2.2 = true → False) ∧
    (∀ (controls ws grab : List (String × ControlEntry)) (u : String),
      (∀ u2, dictMem u2 ws = true → dictMem u2 grab = true → False) →
      dictMem u grab = false →
      (∀ u2, dictMem u2 (promoteControl controls ws u) = true →
        dictMem u2 grab = true → False)) := by
  constructor
  · have hfold := extract_fold_inv tb elems ⟨[], [], [], []⟩ []
      (by intro u h1 h2; simp [dictMem] at h1)
      (by intro u hu; simp [dictMem] at hu)
      (fun u hu hm => by simp at hm)
      h
    exact fun u h1 h2 => hfold.1 u h1 h2
  · intro controls ws grab u hdisj hugrab u2 h1 h2
    rw [promoteControl] at h1
    by_cases hmem : dictMem u ws = true
    · rw [if_pos hmem] at h1
      exact hdisj u2 h1 h2
    · rw [if_neg hmem] at h1
      cases hl : List.lookup u controls with
      | none =>
        rw [hl] at h1
        exact hdisj u2 h1 h2
      | some e =>
        rw [hl] at h1
        rcases (dictMem_dictInsert _ _ _ _).mp h1 with hh | hh
        · rw [hh] at h2
          rw [h2] at hugrab
          exact Bool.noConfusion hugrab
        · exact hdisj u2 hh h2

/-- Witness for the amended registry theorem at a one-element document. -/
theorem c4_registry_disjointness_witness :
    (∀ u, dictMem u (extractControls [] [⟨"T", "X", none, none, []⟩]).2.1 = true →
      dictMem u (extractControls [] [⟨"T", "X", none, none, []⟩]).2.2 = true → False) ∧
    (∀ (controls ws grab : List (String × ControlEntry)) (u : String),
      (∀ u2, dictMem u2 ws = true → dictMem u2 grab = true → False) →
      dictMem u grab = false →
      (∀ u2, dictMem u2 (promoteControl controls ws u) = true →
        dictMem u2 grab = true → False)) :=
  c4_registry_disjointness [] [⟨"T", "X", none, none, []⟩] (by decide)

/-- C5 counterexample: with round_floats=false the formatter fixes 15 decimal
places, so 3.14159 renders zero-padded as "3.141590000000000", not as the
claimed full-precision "3.14159". -/
theorem c5_full_precision_counterexample :
    formatValue false 2 (mkRat 314159 100000) = "3.141590000000000" ∧
      formatValue false 2 (mkRat 314159 100000) ≠ "3.14159" := by
  refine ⟨by decide, by decide⟩

/-- C5 (amended): with round_floats=true and rounding_precision=2 the value
3.14159 formats as "3.14"; with round_floats=false the formatter derived once
in the constructor uses a fixed precision of 15, so the same value formats as
"3.141590000000000" (zero-padded, not full precision). -/
theorem c5_formatter_rounding :
    formatValue true 2 (mkRat 314159 100000) = "3.14" ∧
      formatValue false 2 (mkRat 314159 100000) = "3.141590000000000" := by
  refine ⟨by decide, by decide⟩

/-- C6 (code bug): with use_cache set and the cached last-modified timestamp
present (the state after a first successful fetch), the cache guard compares
the cached datetime against the un-awaited coroutine object returned by
calling the async `get_loxapp3_json_last_modified` without `await`, raising
TypeError — so a repeated fetch never returns the cached document and never
reaches the zero-transfer-calls path the claim describes. -/
theorem c6_cache_guard_raises (t : Nat) :
    cacheGuard true (some t) =
      .error "TypeError: unsupported operand types for comparison" := rfl

/-- C7 counterexample: a fetch whose persist block fails at the JSON write
leaves the XML cache file refreshed and the JSON cache file stale — a
reachable state in which exactly one of the two files has been rewritten. -/
theorem c7_partial_write_counterexample :
    persistStep ⟨some "old-xml", some "old-json"⟩ "new-xml" "new-json"
        .jsonWriteFault =
      (⟨some "new-xml", some "old-json"⟩, false) := by decide

/-- C7 (amended): the persist block writes the two cache files sequentially,
XML first: a failure at the XML write leaves both files unchanged, a failure
at the JSON write leaves the XML refreshed and the JSON stale, and only a
fault-free run rewrites both — the update is not atomic across the two
files. -/
theorem c7_sequential_cache_writes (st : CacheFiles) (nx nj : String) :
    persistStep st nx nj .xmlWriteFault = (st, false) ∧
      persistStep st nx nj .jsonWriteFault =
        ({ st with xmlContent := some nx }, false) ∧
      persistStep st nx nj .noFault = (⟨some nx, some nj⟩, true) :=
  ⟨rfl, rfl, rfl⟩

/-- C8 counterexample: a UDP write whose send fails and whose recovery connect
also fails propagates the connect error to the caller of `write` — the claim
that write never propagates a transport error raised during the internal
close-and-reinitialize recovery is false. -/
theorem c8_write_propagates_counterexample :
    udpWrite ⟨some (), true⟩ true true =
      .error "Failed to create UDP endpoint for Telegraf" := by decide

/-- C8 (amended): `UDPTelegrafWriter.write` returns normally whenever the
recovery's connect succeeds (in particular a bare send failure never
propagates), but when the send fails and the recovery's connect also raises,
that error propagates out of `write` to the value-routing path. -/
theorem c8_write_failure_handling (st : UDPWriterState) (sendFault : Bool) :
    (∃ st1, udpWrite st sendFault false = .ok st1) ∧
      ((st.transport.isSome && !sendFault) = false →
        udpWrite st sendFault true =
          .error "Failed to create UDP endpoint for Telegraf") := by
  constructor
  · by_cases h : (st.transport.isSome && !sendFault) = true
    · exact ⟨st, by simp [udpWrite, h]⟩
    · refine ⟨⟨some (), true⟩, ?_⟩
      simp only [Bool.not_eq_true] at h
      simp [udpWrite, h, udpInitialize, udpClose, udpConnect]
  · intro h
    simp [udpWrite, h, udpInitialize, udpClose, udpConnect]

/-- C9 (code bug): the repair step as invoked never fires — the caller passes
the regex-style alternation "(LoxAIR|LoxAIRDevice|User)" but the function
searches for it with a literal `str.find`, which no document containing
`<C Type="LoxAIR" ...>` can match, so a duplicated attribute on a LoxAIR
element survives the repair unchanged. -/
theorem c9_repair_does_not_fire :
    repairMalformedAttributes "<C Type=\"LoxAIR\" A=\"1\" A=\"2\"/>" =
      "<C Type=\"LoxAIR\" A=\"1\" A=\"2\"/>" := by decide

/-- C10: the poll-path coercion returns any string parsing as an integer as
exactly that integer, for every rounding configuration; rounding applies only
to values that parse as (possibly non-integer) decimals via float(), and a
value parsing as neither comes back unchanged as text. -/
theorem c10_integer_values_exact (round_floats : Bool) (rounding_precision : Nat)
    (s : String) :
    (∀ n, pyInt s = some n →
      get_numeric_value_if_possible round_floats rounding_precision s = .intVal n) ∧
      (pyInt s = none → ∀ q, pyFloat s = some q →
        get_numeric_value_if_possible round_floats rounding_precision s =
          .floatVal (if round_floats then roundTo rounding_precision q else q)) ∧
      (pyInt s = none → pyFloat s = none →
        get_numeric_value_if_possible round_floats rounding_precision s = .strVal s) := by
  refine ⟨?_, ?_, ?_⟩ <;> intros <;> simp_all [get_numeric_value_if_possible]

end LoxInFlux
